import Mathlib

/-!
Verification development for the task-manager web application.

The backend is embedded from `src/backend/src/services/taskService.ts`,
`src/backend/src/types/task.ts`, the controllers and routes
(`src/unnamed/part_001`, `src/unnamed/part_002`, `src/backend/src/routes/taskRoutes.ts`)
and the middleware (`src/unnamed/part_000`).

The client cache layer is embedded from
`src/frontend/src/providers/QueryProvider.tsx` (the React Query hooks) and
`src/frontend/src/services/taskApi.ts`; the task list cached under the
`['tasks']` query key is modelled as `Option (List Task)` (`none` when the
query has never populated the cache, mirroring `getQueryData` returning
`undefined`), and `invalidateQueries` is modelled as a counter of scheduled
revalidations.
-/

namespace TaskManager

/-- Status enumeration from `src/backend/src/types/task.ts`:
`z.enum(['pending', 'done'])`. -/
inductive TaskStatus where
  | pending
  | done
deriving DecidableEq

/-- Task record from `TaskSchema` in `src/backend/src/types/task.ts`. -/
structure Task where
  id : String
  title : String
  description : String
  status : TaskStatus
deriving DecidableEq

/-- Payload accepted by `CreateTaskSchema` after parsing: title, description
and a (possibly defaulted) status. -/
structure CreateTask where
  title : String
  description : String
  status : TaskStatus
deriving DecidableEq

/-- Payload accepted by `UpdateTaskSchema` after parsing: only the status. -/
structure UpdateTask where
  status : TaskStatus
deriving DecidableEq

/-- The sample task in the initial in-memory store of
`src/backend/src/services/taskService.ts`. -/
def sampleTask : Task :=
  { id := "1", title := "Sample Task", description := "This is a sample task",
    status := TaskStatus.pending }

/-- State of the `TaskService` singleton: the `tasks` array and the `nextId`
counter. -/
structure ServiceState where
  tasks : List Task
  nextId : Nat
deriving DecidableEq

/-- Initial state of `TaskService`: one sample task with id "1" and
`nextId = 2`. -/
def initialState : ServiceState := { tasks := [sampleTask], nextId := 2 }

/-- Embeds `TaskService.getAllTasks`. -/
def getAllTasks (s : ServiceState) : List Task := s.tasks

/-- Embeds `TaskService.getTaskById`: `tasks.find(task => task.id === id)`. -/
def getTaskById (s : ServiceState) (id : String) : Option Task :=
  s.tasks.find? (fun t => t.id == id)

/-- Embeds `TaskService.createTask`: the new task gets
`id = nextId.toString()`, the remaining fields come from the parsed payload,
`nextId` is incremented and the task is pushed at the end of the array. -/
def createTask (s : ServiceState) (d : CreateTask) : Task × ServiceState :=
  let newTask : Task :=
    { id := Nat.repr s.nextId, title := d.title, description := d.description,
      status := d.status }
  (newTask, { tasks := s.tasks ++ [newTask], nextId := s.nextId + 1 })

/-- Embeds `TaskService.deleteTask`: `findIndex` on the id, return `false`
when absent, otherwise `splice(taskIndex, 1)` and return `true`. -/
def deleteTask (s : ServiceState) (id : String) : Bool × ServiceState :=
  match s.tasks.findIdx? (fun t => t.id == id) with
  | none => (false, s)
  | some i => (true, { s with tasks := s.tasks.eraseIdx i })

/-- Common shape of `TaskService.updateTaskStatus` and
`TaskService.updateTask`: `findIndex` on the id, and when found replace the
element at that index with `{ ...tasks[taskIndex], ...updateData }` (the
merge is the argument `f`), returning the updated record. The inner `none`
branch of the index lookup is unreachable because `findIndex` returns an
in-bounds index. -/
def updateFirst (p : Task → Bool) (f : Task → Task) (l : List Task) :
    Option Task × List Task :=
  match l.findIdx? p with
  | none => (none, l)
  | some i =>
    match l[i]? with
    | none => (none, l)
    | some old => (some (f old), l.set i (f old))

/-- Embeds `TaskService.updateTaskStatus`: merging `{ status }` over the
stored task replaces only the status field. -/
def updateTaskStatus (s : ServiceState) (id : String) (u : UpdateTask) :
    Option Task × ServiceState :=
  let r := updateFirst (fun t => t.id == id)
    (fun t => { t with status := u.status }) s.tasks
  (r.1, { s with tasks := r.2 })

/-- Embeds `TaskService.updateTask`: merging a parsed `CreateTask` payload
over the stored task replaces title, description and status, keeping the id. -/
def updateTask (s : ServiceState) (id : String) (d : CreateTask) :
    Option Task × ServiceState :=
  let r := updateFirst (fun t => t.id == id)
    (fun t => { t with title := d.title, description := d.description,
                       status := d.status }) s.tasks
  (r.1, { s with tasks := r.2 })

/-- JSON request body reaching the controllers: each field may be absent.
A present status is already a member of the two-value enumeration (a body
with an ill-typed status is rejected by the same Zod parse and is not needed
by any claim). -/
structure ReqBody where
  title : Option String
  description : Option String
  status : Option TaskStatus
deriving DecidableEq

/-- Issue list produced by `CreateTaskSchema.parse` for the title and
description constraints (`z.string().min(1)`): a missing or empty field
contributes one machine-readable issue. -/
def createIssues (b : ReqBody) : List String :=
  (match b.title with
   | none => ["title: Required"]
   | some t => if t.length < 1 then ["title: String must contain at least 1 character(s)"] else [])
  ++
  (match b.description with
   | none => ["description: Required"]
   | some d => if d.length < 1 then ["description: String must contain at least 1 character(s)"] else [])

/-- Embeds `CreateTaskSchema.parse`: title and description must be present,
nonempty strings; a missing status defaults to `pending`
(`z.enum(['pending','done']).default('pending')`). -/
def parseCreateTask (b : ReqBody) : Except (List String) CreateTask :=
  match b.title, b.description with
  | some t, some d =>
    if t.length < 1 ∨ d.length < 1 then Except.error (createIssues b)
    else Except.ok { title := t, description := d,
                     status := b.status.getD TaskStatus.pending }
  | _, _ => Except.error (createIssues b)

/-- Embeds `UpdateTaskSchema.parse`: the status field is required. -/
def parseUpdateTask (b : ReqBody) : Except (List String) UpdateTask :=
  match b.status with
  | some st => Except.ok { status := st }
  | none => Except.error ["status: Required"]

/-- Response body variants produced by the controllers and middleware. -/
inductive RespBody where
  | taskBody (t : Task)
  | tasksBody (ts : List Task)
  | messageBody (m : String)
  | errBody (e : String) (details : List String)
deriving DecidableEq

/-- HTTP response: status code plus JSON body. -/
structure HttpResponse where
  status : Nat
  body : RespBody
deriving DecidableEq

/-- Embeds the `createTask` controller of `src/unnamed/part_001`: a Zod
failure yields 400 with `{ error: 'Invalid data', details }` before the
service is called; success calls `taskService.createTask` and yields 201. -/
def createTaskController (b : ReqBody) (s : ServiceState) :
    HttpResponse × ServiceState :=
  match parseCreateTask b with
  | Except.error issues =>
    ({ status := 400, body := RespBody.errBody "Invalid data" issues }, s)
  | Except.ok d =>
    let r := createTask s d
    ({ status := 201, body := RespBody.taskBody r.1 }, r.2)

/-- Embeds the `deleteTask` controller: an empty (falsy) id yields 400, a
missing task yields 404, success yields the confirmation message. -/
def deleteTaskController (id : String) (s : ServiceState) :
    HttpResponse × ServiceState :=
  if id = "" then
    ({ status := 400, body := RespBody.errBody "Task ID is required" [] }, s)
  else
    let r := deleteTask s id
    if r.1 then ({ status := 200, body := RespBody.messageBody "Task deleted" }, r.2)
    else ({ status := 404, body := RespBody.errBody "Task not found" [] }, r.2)

/-- Embeds the `updateTaskStatus` controller (PATCH). -/
def updateTaskStatusController (id : String) (b : ReqBody) (s : ServiceState) :
    HttpResponse × ServiceState :=
  if id = "" then
    ({ status := 400, body := RespBody.errBody "Task ID is required" [] }, s)
  else
    match parseUpdateTask b with
    | Except.error issues =>
      ({ status := 400, body := RespBody.errBody "Invalid data" issues }, s)
    | Except.ok u =>
      let r := updateTaskStatus s id u
      match r.1 with
      | none => ({ status := 404, body := RespBody.errBody "Task not found" [] }, r.2)
      | some t => ({ status := 200, body := RespBody.taskBody t }, r.2)

/-- Embeds the `updateTask` controller (PUT): the body is parsed with
`CreateTaskSchema`, so an absent status is defaulted to `pending` before the
merge performed by `TaskService.updateTask`. -/
def updateTaskController (id : String) (b : ReqBody) (s : ServiceState) :
    HttpResponse × ServiceState :=
  if id = "" then
    ({ status := 400, body := RespBody.errBody "Task ID is required" [] }, s)
  else
    match parseCreateTask b with
    | Except.error issues =>
      ({ status := 400, body := RespBody.errBody "Invalid data" issues }, s)
    | Except.ok d =>
      let r := updateTask s id d
      match r.1 with
      | none => ({ status := 404, body := RespBody.errBody "Task not found" [] }, r.2)
      | some t => ({ status := 200, body := RespBody.taskBody t }, r.2)

/-- HTTP methods used by the router and the client. -/
inductive Method where
  | get
  | post
  | put
  | patch
  | delete
deriving DecidableEq

/-- Request paths under the `/api` mount, as matched by the Express route
patterns `/tasks` and `/tasks/:id`; `otherPath` covers everything else. -/
inductive ApiPath where
  | tasksPath
  | taskPath (id : String)
  | otherPath (url : String)
deriving DecidableEq

/-- Handler selected by the router, with the extracted `:id` parameter. -/
inductive Handler where
  | hGetAllTasks
  | hCreateTask
  | hDeleteTask (id : String)
  | hUpdateTaskStatus (id : String)
  | hUpdateTask (id : String)
  | hNotFound (url : String)
deriving DecidableEq

/-- The `req.originalUrl` of a request under the `/api` mount. -/
def urlOf : ApiPath → String
  | ApiPath.tasksPath => "/api/tasks"
  | ApiPath.taskPath id => "/api/tasks/" ++ id
  | ApiPath.otherPath url => url

/-- Embeds the route table of `src/backend/src/routes/taskRoutes.ts`
(mounted under `/api` in `server.ts`): GET /tasks, POST /tasks,
DELETE /tasks/:id, PATCH /tasks/:id, PUT /tasks/:id. Any request matching no
registered route — in particular GET /tasks/:id, for which no handler is
registered — falls through to the `notFound` middleware of
`src/unnamed/part_000`. -/
def route : Method → ApiPath → Handler
  | Method.get, ApiPath.tasksPath => Handler.hGetAllTasks
  | Method.post, ApiPath.tasksPath => Handler.hCreateTask
  | Method.delete, ApiPath.taskPath id => Handler.hDeleteTask id
  | Method.patch, ApiPath.taskPath id => Handler.hUpdateTaskStatus id
  | Method.put, ApiPath.taskPath id => Handler.hUpdateTask id
  | _, p => Handler.hNotFound (urlOf p)

/-- Dispatches one request through the router and the selected controller;
the `notFound` middleware returns 404 with
`{ error: 'Route <originalUrl> not found' }` and never touches the store. -/
def handle (m : Method) (p : ApiPath) (b : ReqBody) (s : ServiceState) :
    HttpResponse × ServiceState :=
  match route m p with
  | Handler.hGetAllTasks =>
    ({ status := 200, body := RespBody.tasksBody (getAllTasks s) }, s)
  | Handler.hCreateTask => createTaskController b s
  | Handler.hDeleteTask id => deleteTaskController id s
  | Handler.hUpdateTaskStatus id => updateTaskStatusController id b s
  | Handler.hUpdateTask id => updateTaskController id b s
  | Handler.hNotFound url =>
    ({ status := 404, body := RespBody.errBody ("Route " ++ url ++ " not found") [] }, s)

/-- Embeds `TaskAPI.getTask` of `src/frontend/src/services/taskApi.ts`: the
single-task lookup issues GET `/tasks/<id>`. -/
def getTaskRequest (id : String) : Method × ApiPath :=
  (Method.get, ApiPath.taskPath id)

/-- Client-side state relevant to the cache layer of
`src/frontend/src/providers/QueryProvider.tsx`: the data cached under the
`['tasks']` query key (`none` when `getQueryData` would return `undefined`)
and the number of `invalidateQueries({ queryKey: ['tasks'] })` calls issued,
each of which schedules a revalidating refetch of the task list. -/
structure ClientState where
  cache : Option (List Task)
  invalidations : Nat
deriving DecidableEq

/-- Embeds `queryClient.invalidateQueries({ queryKey: QUERY_KEYS.TASKS })`:
one more revalidating read of the task list is scheduled. -/
def invalidateTasks (c : ClientState) : ClientState :=
  { c with invalidations := c.invalidations + 1 }

/-- Partial update payload sent by the client full-update path
(`UpdateTaskData`): each field is optional, mirroring a JS object whose
properties may be absent. -/
structure UpdateTaskData where
  title : Option String
  description : Option String
  status : Option TaskStatus
deriving DecidableEq

/-- JS spread merge `{ ...task, ...updates }`: absent properties of
`updates` do not override the task's fields. -/
def mergeTask (t : Task) (u : UpdateTaskData) : Task :=
  { t with title := u.title.getD t.title,
           description := u.description.getD t.description,
           status := u.status.getD t.status }

/-- The mutation start of `useCreateTaskMutation`: the hook registers no
`onMutate` handler, so starting the create request performs no cache write —
the client state is untouched while the request is in flight. -/
def createStart (c : ClientState) : ClientState := c

/-- Embeds `useCreateTaskMutation.onSuccess`: append the server-returned
task to the cached list (`(oldTasks = []) => [...oldTasks, newTask]`), then
invalidate the tasks key. -/
def createOnSuccess (t : Task) (c : ClientState) : ClientState :=
  invalidateTasks { c with cache := some (c.cache.getD [] ++ [t]) }

/-- Embeds `useCreateTaskMutation.onError`: only `console.error` — no cache
write and no invalidation. -/
def createOnError (e : String) (c : ClientState) : ClientState := c

/-- Embeds `useUpdateTaskStatusMutation.onMutate`: snapshot `previousTasks`,
and when the snapshot is present apply the optimistic status change
(`oldTasks.map(task => task.id === id ? { ...task, status } : task)`).
Returns the context holding the snapshot together with the new state. -/
def statusOnMutate (id : String) (st : TaskStatus) (c : ClientState) :
    Option (List Task) × ClientState :=
  let previousTasks := c.cache
  match previousTasks with
  | some ts =>
    (previousTasks,
     { c with cache := some (ts.map (fun t => if t.id == id then { t with status := st } else t)) })
  | none => (previousTasks, c)

/-- Embeds `useUpdateTaskMutation.onMutate`: snapshot, then optimistic merge
(`oldTasks.map(task => task.id === id ? { ...task, ...updates } : task)`). -/
def updateOnMutate (id : String) (u : UpdateTaskData) (c : ClientState) :
    Option (List Task) × ClientState :=
  let previousTasks := c.cache
  match previousTasks with
  | some ts =>
    (previousTasks,
     { c with cache := some (ts.map (fun t => if t.id == id then mergeTask t u else t)) })
  | none => (previousTasks, c)

/-- Embeds `useDeleteTaskMutation.onMutate`: snapshot, then optimistic
removal (`oldTasks.filter(task => task.id !== id)`). -/
def deleteOnMutate (id : String) (c : ClientState) :
    Option (List Task) × ClientState :=
  let previousTasks := c.cache
  match previousTasks with
  | some ts =>
    (previousTasks, { c with cache := some (ts.filter (fun t => !(t.id == id))) })
  | none => (previousTasks, c)

/-- Embeds the identical `onError` handlers of the status-update,
full-update and delete mutations: when the context carries a snapshot, write
it back wholesale (`setQueryData(QUERY_KEYS.TASKS, context.previousTasks)`) —
a full replacement of the cached collection, not a merge. -/
def rollbackOnError (ctx : Option (List Task)) (c : ClientState) : ClientState :=
  match ctx with
  | some prev => { c with cache := some prev }
  | none => c

/-- A failed run of the status-update mutation: `onMutate`, then the network
call fails, then `onError` (rollback), then `onSettled` (invalidate). -/
def runStatusFailure (id : String) (st : TaskStatus) (e : String)
    (c : ClientState) : ClientState :=
  let r := statusOnMutate id st c
  invalidateTasks (rollbackOnError r.1 r.2)

/-- A successful run of the status-update mutation: `onMutate`, then the
server confirms, then `onSettled` (the hook registers no `onSuccess`). -/
def runStatusSuccess (id : String) (st : TaskStatus) (c : ClientState) :
    ClientState :=
  invalidateTasks (statusOnMutate id st c).2

/-- A failed run of the full-update mutation. -/
def runUpdateFailure (id : String) (u : UpdateTaskData) (e : String)
    (c : ClientState) : ClientState :=
  let r := updateOnMutate id u c
  invalidateTasks (rollbackOnError r.1 r.2)

/-- A successful run of the full-update mutation. -/
def runUpdateSuccess (id : String) (u : UpdateTaskData) (c : ClientState) :
    ClientState :=
  invalidateTasks (updateOnMutate id u c).2

/-- A failed run of the delete mutation. -/
def runDeleteFailure (id : String) (e : String) (c : ClientState) : ClientState :=
  let r := deleteOnMutate id c
  invalidateTasks (rollbackOnError r.1 r.2)

/-- A successful run of the delete mutation. -/
def runDeleteSuccess (id : String) (c : ClientState) : ClientState :=
  invalidateTasks (deleteOnMutate id c).2

/-- A successful run of the create mutation: no `onMutate`, then `onSuccess`
(append + invalidate); the hook registers no `onSettled`. -/
def runCreateSuccess (t : Task) (c : ClientState) : ClientState :=
  createOnSuccess t (createStart c)

/-- A failed run of the create mutation: no `onMutate`, then `onError`
(logging only); the hook registers no `onSettled`, so nothing else runs. -/
def runCreateFailure (e : String) (c : ClientState) : ClientState :=
  createOnError e (createStart c)

/-- Embeds `toggleTaskStatus` of the `useTasks` hook: read the current
cached list (`tasksQuery.data || []`), look the task up by id, throw
`Error('Task not found')` when absent — before any network call — and
otherwise issue the status-update mutation with the opposite status
(`task.status === 'done' ? 'pending' : 'done'`). The `ok` value is the
`{ id, status }` request handed to `mutateAsync`; the `error` value is the
message of the client-side not-found failure, thrown without issuing any
network request. -/
def toggleTaskStatus (c : ClientState) (id : String) :
    Except String (String × TaskStatus) :=
  let currentTasks := c.cache.getD []
  match currentTasks.find? (fun t => t.id == id) with
  | none => Except.error "Task not found"
  | some task =>
    let newStatus : TaskStatus :=
      if task.status = TaskStatus.done then TaskStatus.pending else TaskStatus.done
    Except.ok (id, newStatus)

/-- Request body built by `TaskItem.handleSave` (`src/unnamed/part_006`):
`{ title: editTitle.trim(), description: editDescription.trim() }` — the
status field is not part of the client save payload. -/
def handleSaveBody (editTitle editDescription : String) : ReqBody :=
  { title := some editTitle.trim, description := some editDescription.trim,
    status := none }

/-- One store-level operation, for reasoning about arbitrary operation
sequences against the `TaskService` state. -/
inductive Op where
  | create (d : CreateTask)
  | updateStatusOp (id : String) (u : UpdateTask)
  | updateOp (id : String) (d : CreateTask)
  | deleteOp (id : String)

/-- Applies one operation to the service state, discarding the returned
value. -/
def applyOp (s : ServiceState) : Op → ServiceState
  | Op.create d => (createTask s d).2
  | Op.updateStatusOp id u => (updateTaskStatus s id u).2
  | Op.updateOp id d => (updateTask s id d).2
  | Op.deleteOp id => (deleteTask s id).2

/-- Applies a sequence of operations from left to right. -/
def applyOps (s : ServiceState) (ops : List Op) : ServiceState :=
  ops.foldl applyOp s

/-- Decimal digit list of a natural number, most significant digit first;
a structural restatement of the digit loop inside `Nat.toDigitsCore`, used
to reason about the ids `Nat.repr nextId` produced by `createTask`. -/
def natDigits (n : Nat) : List Char :=
  if h : n < 10 then [Nat.digitChar n]
  else
    have : n / 10 < n := Nat.div_lt_self (by omega) (by omega)
    natDigits (n / 10) ++ [Nat.digitChar (n % 10)]

/-- Invariant maintained by the `TaskService` state: every stored id is the
decimal string of some counter value already consumed (strictly below
`nextId`), and the stored ids are pairwise distinct. -/
def GoodState (s : ServiceState) : Prop :=
  (∀ t ∈ s.tasks, ∃ n, n < s.nextId ∧ t.id = Nat.repr n) ∧
  (s.tasks.map Task.id).Nodup

/-- A concrete client state used by witnesses: the cache holds the sample
task and no invalidation has been scheduled yet. -/
def clientState0 : ClientState :=
  { cache := some [sampleTask], invalidations := 0 }

theorem findIdx?_append_first {α : Type} (p : α → Bool) (l₁ : List α) (a : α)
    (l₂ : List α) (h₁ : ∀ b ∈ l₁, p b = false) (ha : p a = true) :
    (l₁ ++ a :: l₂).findIdx? p = some l₁.length := by
  induction l₁ with
  | nil => simp [List.findIdx?_cons, ha]
  | cons b l ih =>
    have hb : p b = false := h₁ b (List.mem_cons_self b l)
    have ih2 := ih (fun x hx => h₁ x (List.mem_cons_of_mem b hx))
    simp [List.findIdx?_cons, hb, ih2]

theorem getElem?_append_cons {α : Type} (l₁ : List α) (a : α) (l₂ : List α) :
    (l₁ ++ a :: l₂)[l₁.length]? = some a := by
  induction l₁ with
  | nil => simp
  | cons b l ih => simpa using ih

theorem set_append_cons {α : Type} (l₁ : List α) (a b : α) (l₂ : List α) :
    (l₁ ++ a :: l₂).set l₁.length b = l₁ ++ b :: l₂ := by
  induction l₁ with
  | nil => rfl
  | cons c l ih => simp [List.set, ih]

theorem eraseIdx_append_cons {α : Type} (l₁ : List α) (a : α) (l₂ : List α) :
    (l₁ ++ a :: l₂).eraseIdx l₁.length = l₁ ++ l₂ := by
  induction l₁ with
  | nil => rfl
  | cons c l ih => simp [List.eraseIdx, ih]

theorem find?_append_first {α : Type} (p : α → Bool) (l₁ : List α) (a : α)
    (l₂ : List α) (h₁ : ∀ b ∈ l₁, p b = false) (ha : p a = true) :
    (l₁ ++ a :: l₂).find? p = some a := by
  induction l₁ with
  | nil => simp [List.find?_cons, ha]
  | cons b l ih =>
    have hb : p b = false := h₁ b (List.mem_cons_self b l)
    have ih2 := ih (fun x hx => h₁ x (List.mem_cons_of_mem b hx))
    simp [List.find?_cons, hb, ih2]

theorem updateFirst_absent (p : Task → Bool) (f : Task → Task) (l : List Task)
    (h : ∀ b ∈ l, p b = false) : updateFirst p f l = (none, l) := by
  simp [updateFirst, List.findIdx?_eq_none_iff.mpr h]

theorem updateFirst_present (p : Task → Bool) (f : Task → Task)
    (l₁ : List Task) (a : Task) (l₂ : List Task)
    (h₁ : ∀ b ∈ l₁, p b = false) (ha : p a = true) :
    updateFirst p f (l₁ ++ a :: l₂) = (some (f a), l₁ ++ f a :: l₂) := by
  simp only [updateFirst, findIdx?_append_first p l₁ a l₂ h₁ ha,
    getElem?_append_cons, set_append_cons]

theorem deleteTask_absent (s : ServiceState) (id : String)
    (h : ∀ t ∈ s.tasks, t.id ≠ id) : deleteTask s id = (false, s) := by
  have hb : ∀ t ∈ s.tasks, (t.id == id) = false := by
    intro t ht
    exact beq_eq_false_iff_ne.mpr (h t ht)
  simp [deleteTask, List.findIdx?_eq_none_iff.mpr hb]

theorem deleteTask_present (s : ServiceState) (id : String)
    (l₁ : List Task) (a : Task) (l₂ : List Task) (hs : s.tasks = l₁ ++ a :: l₂)
    (h₁ : ∀ b ∈ l₁, b.id ≠ id) (ha : a.id = id) :
    deleteTask s id = (true, { s with tasks := l₁ ++ l₂ }) := by
  have h₁b : ∀ b ∈ l₁, (b.id == id) = false := by
    intro b hb
    exact beq_eq_false_iff_ne.mpr (h₁ b hb)
  have hab : (a.id == id) = true := beq_iff_eq.mpr ha
  simp [deleteTask, hs, findIdx?_append_first _ l₁ a l₂ h₁b hab,
    eraseIdx_append_cons]

theorem natDigits_lt (n : Nat) (h : n < 10) : natDigits n = [Nat.digitChar n] := by
  rw [natDigits, dif_pos h]

theorem natDigits_ge (n : Nat) (h : ¬ n < 10) :
    natDigits n = natDigits (n / 10) ++ [Nat.digitChar (n % 10)] := by
  rw [natDigits, dif_neg h]

theorem natDigits_ne_nil (n : Nat) : natDigits n ≠ [] := by
  by_cases h : n < 10
  · simp [natDigits_lt n h]
  · simp [natDigits_ge n h]

theorem digitChar_inj :
    ∀ m < 10, ∀ n < 10, Nat.digitChar m = Nat.digitChar n → m = n := by decide

theorem natDigits_inj : ∀ m n : Nat, natDigits m = natDigits n → m = n := by
  intro m
  induction m using Nat.strong_induction_on with
  | _ m ih =>
    intro n h
    by_cases hm : m < 10 <;> by_cases hn : n < 10
    · rw [natDigits_lt m hm, natDigits_lt n hn] at h
      exact digitChar_inj m hm n hn (List.cons.inj h).1
    · rw [natDigits_lt m hm, natDigits_ge n hn] at h
      have hl := congrArg List.length h
      simp at hl
      exact absurd hl (natDigits_ne_nil _)
    · rw [natDigits_ge m hm, natDigits_lt n hn] at h
      have hl := congrArg List.length h
      simp at hl
      exact absurd hl (natDigits_ne_nil _)
    · rw [natDigits_ge m hm, natDigits_ge n hn] at h
      have h2 := congrArg List.reverse h
      simp [List.reverse_append] at h2
      obtain ⟨h3, h4⟩ := h2
      have hmod : m % 10 = n % 10 :=
        digitChar_inj (m % 10) (Nat.mod_lt m (by omega)) (n % 10)
          (Nat.mod_lt n (by omega)) h3
      have hdivlt : m / 10 < m := Nat.div_lt_self (by omega) (by omega)
      have hdiv : m / 10 = n / 10 := ih (m / 10) hdivlt (n / 10) h4
      have em := Nat.div_add_mod m 10
      have en := Nat.div_add_mod n 10
      omega

theorem toDigitsCore_eq (fuel : Nat) : ∀ (n : Nat) (ds : List Char), n < fuel →
    Nat.toDigitsCore 10 fuel n ds = natDigits n ++ ds := by
  induction fuel with
  | zero => intro n ds h; omega
  | succ fuel ih =>
    intro n ds h
    by_cases h0 : n / 10 = 0
    · have hlt : n < 10 := by
        have := (Nat.div_eq_zero_iff (by omega)).mp h0
        omega
      simp [Nat.toDigitsCore, h0, natDigits_lt n hlt, Nat.mod_eq_of_lt hlt]
    · have hge : ¬ n < 10 := by
        intro hlt
        exact h0 (Nat.div_eq_of_lt hlt)
      have hdivlt : n / 10 < n := Nat.div_lt_self (by omega) (by omega)
      have hfuel : n / 10 < fuel := by omega
      simp only [Nat.toDigitsCore, h0, if_false]
      rw [ih (n / 10) (Nat.digitChar (n % 10) :: ds) hfuel,
        natDigits_ge n hge, List.append_assoc]
      rfl

theorem natRepr_eq (n : Nat) : Nat.repr n = (natDigits n).asString := by
  show (Nat.toDigits 10 n).asString = (natDigits n).asString
  rw [Nat.toDigits, toDigitsCore_eq (n + 1) n [] (Nat.lt_succ_self n),
    List.append_nil]

theorem natRepr_inj (m n : Nat) (h : Nat.repr m = Nat.repr n) : m = n := by
  rw [natRepr_eq, natRepr_eq] at h
  have hd : natDigits m = natDigits n := by
    have := congrArg String.data h
    simpa [List.asString] using this
  exact natDigits_inj m n hd

theorem set_self {α : Type} :
    ∀ (l : List α) (i : Nat) (a : α), l[i]? = some a → l.set i a = l := by
  intro l
  induction l with
  | nil => intro i a h; simp at h
  | cons b l ih =>
    intro i a h
    cases i with
    | zero =>
      simp at h
      simp [List.set, h]
    | succ i =>
      simp at h
      simp [List.set, ih i a h]

theorem updateFirst_map_id (p : Task → Bool) (f : Task → Task)
    (hf : ∀ t, (f t).id = t.id) (l : List Task) :
    ((updateFirst p f l).2).map Task.id = l.map Task.id := by
  unfold updateFirst
  cases hidx : l.findIdx? p with
  | none => rfl
  | some i =>
    dsimp only
    cases hget : l[i]? with
    | none => rfl
    | some old =>
      dsimp only
      have hmap : (l.map Task.id)[i]? = some old.id := by
        simp [List.getElem?_map, hget]
      calc (l.set i (f old)).map Task.id
          = (l.map Task.id).set i (f old).id := by
            rw [List.map_set]
        _ = (l.map Task.id).set i old.id := by rw [hf old]
        _ = l.map Task.id := set_self _ i old.id hmap

theorem updateFirst_nextId (s : ServiceState) (id : String) (u : UpdateTask) :
    (updateTaskStatus s id u).2.nextId = s.nextId := rfl

theorem goodState_of_map_id_eq (s s' : ServiceState)
    (hid : s'.tasks.map Task.id = s.tasks.map Task.id)
    (hnext : s'.nextId = s.nextId) (h : GoodState s) : GoodState s' := by
  obtain ⟨hbound, hnodup⟩ := h
  refine ⟨?_, by rw [hid]; exact hnodup⟩
  intro t ht
  have hmem : t.id ∈ s.tasks.map Task.id := by
    rw [← hid]
    exact List.mem_map_of_mem Task.id ht
  obtain ⟨u, hu, huid⟩ := List.mem_map.mp hmem
  obtain ⟨n, hn, hnid⟩ := hbound u hu
  exact ⟨n, by rw [hnext]; exact hn, by rw [← huid, hnid]⟩

theorem goodState_create (s : ServiceState) (d : CreateTask)
    (h : GoodState s) : GoodState (createTask s d).2 := by
  obtain ⟨hbound, hnodup⟩ := h
  constructor
  · intro t ht
    simp only [createTask, List.mem_append, List.mem_singleton] at ht
    rcases ht with ht | ht
    · obtain ⟨n, hn, hid⟩ := hbound t ht
      exact ⟨n, by simp only [createTask]; omega, hid⟩
    · exact ⟨s.nextId, by simp only [createTask]; omega, by rw [ht]⟩
  · simp only [createTask, List.map_append]
    refine List.Nodup.append hnodup (List.nodup_singleton _) ?_
    simp only [List.map_cons, List.map_nil, List.disjoint_singleton]
    intro hmem
    obtain ⟨u, hu, huid⟩ := List.mem_map.mp hmem
    obtain ⟨n, hn, hnid⟩ := hbound u hu
    have : n = s.nextId := natRepr_inj n s.nextId (by rw [← hnid, huid])
    omega

theorem goodState_delete (s : ServiceState) (id : String)
    (h : GoodState s) : GoodState (deleteTask s id).2 := by
  obtain ⟨hbound, hnodup⟩ := h
  unfold deleteTask
  cases hidx : s.tasks.findIdx? (fun t => t.id == id) with
  | none => exact ⟨hbound, hnodup⟩
  | some i =>
    constructor
    · intro t ht
      exact hbound t (List.eraseIdx_subset s.tasks i ht)
    · exact hnodup.sublist ((List.eraseIdx_sublist s.tasks i).map Task.id)

theorem goodState_applyOp (s : ServiceState) (op : Op)
    (h : GoodState s) : GoodState (applyOp s op) := by
  cases op with
  | create d => exact goodState_create s d h
  | updateStatusOp id u =>
    refine goodState_of_map_id_eq s (applyOp s (Op.updateStatusOp id u)) ?_ rfl h
    exact updateFirst_map_id (fun t => t.id == id)
      (fun t => { t with status := u.status }) (fun t => rfl) s.tasks
  | updateOp id d =>
    refine goodState_of_map_id_eq s (applyOp s (Op.updateOp id d)) ?_ rfl h
    exact updateFirst_map_id (fun t => t.id == id)
      (fun t => { t with title := d.title, description := d.description,
                         status := d.status }) (fun t => rfl) s.tasks
  | deleteOp id => exact goodState_delete s id h

theorem goodState_initial : GoodState initialState := by
  constructor
  · intro t ht
    simp only [initialState, List.mem_singleton] at ht
    exact ⟨1, by decide, by rw [ht]; decide⟩
  · decide

theorem goodState_applyOps (ops : List Op) :
    ∀ s : ServiceState, GoodState s → GoodState (applyOps s ops) := by
  induction ops with
  | nil => intro s h; exact h
  | cons op ops ih =>
    intro s h
    exact ih (applyOp s op) (goodState_applyOp s op h)

theorem applyOp_nextId_mono (s : ServiceState) (op : Op) :
    s.nextId ≤ (applyOp s op).nextId := by
  cases op with
  | create d => simp only [applyOp, createTask]; omega
  | updateStatusOp id u => exact Nat.le_refl _
  | updateOp id d => exact Nat.le_refl _
  | deleteOp id =>
    simp only [applyOp, deleteTask]
    cases s.tasks.findIdx? (fun t => t.id == id) <;> exact Nat.le_refl _

/-- C1: Rollback exactness — for each of the update-status, full-update and
delete mutations started from cache state S (the list under the tasks query
key), a failed network call ends with `onError` writing the `onMutate`
snapshot back wholesale, so the cached collection equals S exactly: the
restore is a full replacement of the collection, not a merge. -/
theorem rollback_exact (S : List Task) (c : ClientState) (id : String)
    (st : TaskStatus) (u : UpdateTaskData) (e : String)
    (h : c.cache = some S) :
    (runStatusFailure id st e c).cache = some S ∧
    (runUpdateFailure id u e c).cache = some S ∧
    (runDeleteFailure id e c).cache = some S := by
  refine ⟨?_, ?_, ?_⟩ <;>
    simp [runStatusFailure, runUpdateFailure, runDeleteFailure,
      statusOnMutate, updateOnMutate, deleteOnMutate, rollbackOnError,
      invalidateTasks, h]

/-- Witness for C1 at concrete inputs. -/
theorem rollback_exact_witness :
    (runStatusFailure "1" TaskStatus.done "boom" clientState0).cache = some [sampleTask] ∧
    (runUpdateFailure "1" ⟨some "T", some "D", none⟩ "boom" clientState0).cache = some [sampleTask] ∧
    (runDeleteFailure "1" "boom" clientState0).cache = some [sampleTask] :=
  rollback_exact [sampleTask] clientState0 "1" TaskStatus.done
    ⟨some "T", some "D", none⟩ "boom" rfl

/-- C2 counterexample: a create mutation that settles with failure schedules
no revalidating read of the task list — `useCreateTaskMutation` registers no
`onSettled` handler and its `onError` does not invalidate, so starting from
a state with zero scheduled invalidations, zero are scheduled afterwards. -/
theorem create_failure_no_invalidation :
    clientState0.invalidations = 0 ∧
    (runCreateFailure "Network error occurred" clientState0).invalidations = 0 :=
  ⟨rfl, rfl⟩

/-- C2 (amended): the status-update, full-update and delete mutations
schedule exactly one invalidation of the tasks query key on settle, on both
success and failure; the create mutation schedules one only on success, and
a failed create schedules none. -/
theorem settle_invalidation_schedule (c : ClientState) (id : String)
    (st : TaskStatus) (u : UpdateTaskData) (t : Task) (e : String) :
    (runStatusSuccess id st c).invalidations = c.invalidations + 1 ∧
    (runStatusFailure id st e c).invalidations = c.invalidations + 1 ∧
    (runUpdateSuccess id u c).invalidations = c.invalidations + 1 ∧
    (runUpdateFailure id u e c).invalidations = c.invalidations + 1 ∧
    (runDeleteSuccess id c).invalidations = c.invalidations + 1 ∧
    (runDeleteFailure id e c).invalidations = c.invalidations + 1 ∧
    (runCreateSuccess t c).invalidations = c.invalidations + 1 ∧
    (runCreateFailure e c).invalidations = c.invalidations := by
  refine ⟨?_, ?_, ?_, ?_, ?_, ?_, ?_, ?_⟩ <;>
    cases hc : c.cache <;>
      simp [runStatusSuccess, runStatusFailure, runUpdateSuccess,
        runUpdateFailure, runDeleteSuccess, runDeleteFailure,
        runCreateSuccess, runCreateFailure, statusOnMutate, updateOnMutate,
        deleteOnMutate, rollbackOnError, invalidateTasks, createOnSuccess,
        createOnError, createStart, hc]

/-- C3: the create mutation applies no optimistic change — the cached list
is untouched while the create request is in flight and the server-returned
record is appended only on success — while each of update-status,
full-update and delete applies its optimistic change to the cache
synchronously in `onMutate`, before any network activity. -/
theorem optimistic_apply_asymmetry (S : List Task) (c : ClientState)
    (id : String) (st : TaskStatus) (u : UpdateTaskData) (t : Task)
    (h : c.cache = some S) :
    (createStart c).cache = some S ∧
    (runCreateSuccess t c).cache = some (S ++ [t]) ∧
    (statusOnMutate id st c).2.cache
      = some (S.map (fun x => if x.id == id then { x with status := st } else x)) ∧
    (updateOnMutate id u c).2.cache
      = some (S.map (fun x => if x.id == id then mergeTask x u else x)) ∧
    (deleteOnMutate id c).2.cache = some (S.filter (fun x => !(x.id == id))) := by
  refine ⟨?_, ?_, ?_, ?_, ?_⟩ <;>
    simp [createStart, runCreateSuccess, createOnSuccess, invalidateTasks,
      statusOnMutate, updateOnMutate, deleteOnMutate, h]

/-- Witness for C3 at concrete inputs. -/
theorem optimistic_apply_asymmetry_witness :
    (createStart clientState0).cache = some [sampleTask] ∧
    (runCreateSuccess { id := "2", title := "A", description := "B", status := TaskStatus.pending } clientState0).cache
      = some ([sampleTask] ++ [{ id := "2", title := "A", description := "B", status := TaskStatus.pending }]) ∧
    (statusOnMutate "1" TaskStatus.done clientState0).2.cache
      = some ([sampleTask].map (fun x =>
          if x.id == "1" then { x with status := TaskStatus.done } else x)) ∧
    (updateOnMutate "1" ⟨some "T", none, none⟩ clientState0).2.cache
      = some ([sampleTask].map (fun x =>
          if x.id == "1" then mergeTask x ⟨some "T", none, none⟩ else x)) ∧
    (deleteOnMutate "1" clientState0).2.cache
      = some ([sampleTask].filter (fun x => !(x.id == "1"))) :=
  optimistic_apply_asymmetry [sampleTask] clientState0 "1" TaskStatus.done
    ⟨some "T", none, none⟩
    { id := "2", title := "A", description := "B", status := TaskStatus.pending } rfl

/-- C4: toggle correctness — when the id is present in the cached list,
`toggleTaskStatus` reads that task's status from the cache and issues an
update-status mutation carrying the opposite status (pending becomes done
and done becomes pending); when the id is absent, it fails with the
client-side not-found error before issuing any network call. -/
theorem toggle_correct (S : List Task) (c : ClientState) (id : String)
    (h : c.cache = some S) :
    (∀ (l₁ : List Task) (a : Task) (l₂ : List Task),
       S = l₁ ++ a :: l₂ → a.id = id → (∀ b ∈ l₁, b.id ≠ id) →
       (a.status = TaskStatus.pending →
          toggleTaskStatus c id = Except.ok (id, TaskStatus.done)) ∧
       (a.status = TaskStatus.done →
          toggleTaskStatus c id = Except.ok (id, TaskStatus.pending))) ∧
    ((∀ b ∈ S, b.id ≠ id) →
       toggleTaskStatus c id = Except.error "Task not found") := by
  constructor
  · intro l₁ a l₂ hS ha h₁
    have h₁b : ∀ b ∈ l₁, ((b.id == id) = false) := fun b hb =>
      beq_eq_false_iff_ne.mpr (h₁ b hb)
    have hfind : S.find? (fun t => t.id == id) = some a := by
      rw [hS]
      exact find?_append_first _ l₁ a l₂ h₁b (beq_iff_eq.mpr ha)
    constructor <;> intro hst <;>
      simp [toggleTaskStatus, h, hfind, hst]
  · intro hall
    have hfind : S.find? (fun t => t.id == id) = none :=
      List.find?_eq_none.mpr (fun x hx => by
        simp [beq_eq_false_iff_ne.mpr (hall x hx)])
    simp [toggleTaskStatus, h, hfind]

/-- Witness for C4: toggling the sample task (pending, id "1") issues the
update-status mutation with status done; toggling the absent id "2" fails
client-side with the not-found error. -/
theorem toggle_correct_witness :
    toggleTaskStatus clientState0 "1" = Except.ok ("1", TaskStatus.done) ∧
    toggleTaskStatus clientState0 "2" = Except.error "Task not found" :=
  ⟨((toggle_correct [sampleTask] clientState0 "1" rfl).1 [] sampleTask []
      rfl rfl (by simp)).1 rfl,
   (toggle_correct [sampleTask] clientState0 "2" rfl).2 (by decide)⟩

/-- C5: a PUT whose body carries only title and description (status absent)
on an existing task with status done succeeds with 200 and resets the task
to pending: `CreateTaskSchema.parse` defaults the missing status to pending
and the parsed object is merged over the stored task. The body shape covers
`TaskItem.handleSave`, which sends exactly title and description. -/
theorem put_without_status_resets_to_pending
    (s : ServiceState) (id : String) (l₁ : List Task) (a : Task)
    (l₂ : List Task) (b : ReqBody) (nt nd : String)
    (hs : s.tasks = l₁ ++ a :: l₂) (ha : a.id = id)
    (h₁ : ∀ x ∈ l₁, x.id ≠ id) (hid : id ≠ "")
    (hdone : a.status = TaskStatus.done)
    (hbt : b.title = some nt) (hbd : b.description = some nd)
    (hbs : b.status = none) (hnt : 1 ≤ nt.length) (hnd : 1 ≤ nd.length) :
    updateTaskController id b s =
      ({ status := 200,
         body := RespBody.taskBody { id := a.id, title := nt, description := nd, status := TaskStatus.pending } },
       { s with tasks := l₁ ++ { id := a.id, title := nt, description := nd, status := TaskStatus.pending } :: l₂ }) := by
  have hparse : parseCreateTask b =
      Except.ok { title := nt, description := nd, status := TaskStatus.pending } := by
    simp only [parseCreateTask, hbt, hbd, hbs]
    rw [if_neg (by omega)]
    rfl
  have h₁b : ∀ x ∈ l₁, ((x.id == id) = false) := fun x hx =>
    beq_eq_false_iff_ne.mpr (h₁ x hx)
  have hupd := updateFirst_present (fun t => t.id == id)
    (fun t => { t with title := nt, description := nd, status := TaskStatus.pending })
    l₁ a l₂ h₁b (beq_iff_eq.mpr ha)
  simp only [updateTaskController, if_neg hid, hparse, updateTask, hs, hupd]

/-- Witness for C5: saving a new title and description with the status field
omitted (the shape of the `handleSave` payload) on a done task returns the
task reset to pending. -/
theorem put_without_status_resets_to_pending_witness :
    updateTaskController "1" ⟨some "New title", some "Some details", none⟩
      ⟨[⟨"1", "Old", "Old desc", TaskStatus.done⟩], 2⟩ =
      ({ status := 200, body := RespBody.taskBody ⟨"1", "New title", "Some details", TaskStatus.pending⟩ },
       ⟨[⟨"1", "New title", "Some details", TaskStatus.pending⟩], 2⟩) :=
  put_without_status_resets_to_pending
    ⟨[⟨"1", "Old", "Old desc", TaskStatus.done⟩], 2⟩ "1" []
    ⟨"1", "Old", "Old desc", TaskStatus.done⟩ []
    ⟨some "New title", some "Some details", none⟩ "New title" "Some details"
    rfl rfl (by simp) (by decide) rfl rfl rfl rfl
    (by decide) (by decide)

/-- C6: a create request whose title or description is the empty string is
rejected with HTTP 400 and a nonempty machine-readable details list, before
any state mutation: the store is exactly the same after the rejected call. -/
theorem create_validation_atomic (s : ServiceState) (b : ReqBody)
    (h : b.title = some "" ∨ b.description = some "") :
    (createTaskController b s).1.status = 400 ∧
    (createTaskController b s).1.body = RespBody.errBody "Invalid data" (createIssues b) ∧
    createIssues b ≠ [] ∧
    (createTaskController b s).2 = s := by
  have herr : parseCreateTask b = Except.error (createIssues b) := by
    rcases h with h | h
    · simp only [parseCreateTask, h]
      cases hd : b.description with
      | none => rfl
      | some d =>
        dsimp only
        rw [if_pos (Or.inl (by decide))]
    · simp only [parseCreateTask, h]
      cases ht : b.title with
      | none => rfl
      | some t =>
        dsimp only
        rw [if_pos (Or.inr (by decide))]
  have hne : createIssues b ≠ [] := by
    rcases h with h | h
    · simp only [createIssues, h]
      rw [if_pos (by decide)]
      intro hnil
      have hlen := congrArg List.length hnil
      simp at hlen
    · simp only [createIssues, h]
      rw [if_pos (by decide)]
      intro hnil
      have hlen := congrArg List.length hnil
      simp at hlen
  exact ⟨by simp [createTaskController, herr], by simp [createTaskController, herr],
    hne, by simp [createTaskController, herr]⟩

/-- Witness for C6: creating with an empty title and nonempty description
against the initial store is rejected with 400 and leaves the store
untouched. -/
theorem create_validation_atomic_witness :
    (createTaskController ⟨some "", some "x", none⟩ initialState).1.status = 400 ∧
    (createTaskController ⟨some "", some "x", none⟩ initialState).1.body
      = RespBody.errBody "Invalid data" (createIssues ⟨some "", some "x", none⟩) ∧
    createIssues (⟨some "", some "x", none⟩ : ReqBody) ≠ [] ∧
    (createTaskController ⟨some "", some "x", none⟩ initialState).2 = initialState :=
  create_validation_atomic initialState ⟨some "", some "x", none⟩ (Or.inl rfl)

/-- C7: delete contract — `deleteTask` returns whether the task existed:
for an id absent from the store it returns false (surfaced as HTTP 404 by
the controller) and leaves the store unchanged; for a present id it removes
exactly that record and returns true; deleting the same id twice succeeds
first and returns not-found second. -/
theorem delete_contract :
    (∀ (s : ServiceState) (id : String), (∀ t ∈ s.tasks, t.id ≠ id) →
       deleteTask s id = (false, s)) ∧
    (∀ (s : ServiceState) (id : String), id ≠ "" → (∀ t ∈ s.tasks, t.id ≠ id) →
       deleteTaskController id s =
         ({ status := 404, body := RespBody.errBody "Task not found" [] }, s)) ∧
    (∀ (s : ServiceState) (id : String) (l₁ : List Task) (a : Task) (l₂ : List Task),
       s.tasks = l₁ ++ a :: l₂ → a.id = id →
       (∀ b ∈ l₁, b.id ≠ id) → (∀ b ∈ l₂, b.id ≠ id) →
       deleteTask s id = (true, { s with tasks := l₁ ++ l₂ }) ∧
       deleteTask { s with tasks := l₁ ++ l₂ } id
         = (false, { s with tasks := l₁ ++ l₂ })) := by
  refine ⟨fun s id h => deleteTask_absent s id h, ?_, ?_⟩
  · intro s id hid h
    simp [deleteTaskController, if_neg hid, deleteTask_absent s id h]
  · intro s id l₁ a l₂ hs ha h₁ h₂
    refine ⟨deleteTask_present s id l₁ a l₂ hs h₁ ha, ?_⟩
    refine deleteTask_absent _ id ?_
    intro t ht
    rcases List.mem_append.mp ht with ht | ht
    · exact h₁ t ht
    · exact h₂ t ht

/-- Witness for C7: deleting the absent id "2" from the initial store
returns false with the store unchanged and the controller answers 404;
deleting the present id "1" removes the sample task, and deleting it again
returns false. -/
theorem delete_contract_witness :
    deleteTask initialState "2" = (false, initialState) ∧
    deleteTaskController "2" initialState
      = ({ status := 404, body := RespBody.errBody "Task not found" [] }, initialState) ∧
    deleteTask initialState "1" = (true, { initialState with tasks := [] ++ [] }) ∧
    deleteTask { initialState with tasks := [] ++ [] } "1"
      = (false, { initialState with tasks := [] ++ [] }) :=
  ⟨delete_contract.1 initialState "2" (by decide),
   delete_contract.2.1 initialState "2" (by decide) (by decide),
   (delete_contract.2.2 initialState "1" [] sampleTask [] rfl rfl (by simp) (by simp)).1,
   (delete_contract.2.2 initialState "1" [] sampleTask [] rfl rfl (by simp) (by simp)).2⟩

/-- C8: frame property of the status update — for a present id the service
replaces only the status field of the matching task (id, title and
description unchanged), keeps every other task, and preserves the length
and order of the list; for an absent id it returns not-found (`null`) and
the store is unchanged. -/
theorem update_status_frame :
    (∀ (s : ServiceState) (id : String) (st : TaskStatus),
       (∀ t ∈ s.tasks, t.id ≠ id) →
       updateTaskStatus s id { status := st } = (none, s)) ∧
    (∀ (s : ServiceState) (id : String) (st : TaskStatus)
       (l₁ : List Task) (a : Task) (l₂ : List Task),
       s.tasks = l₁ ++ a :: l₂ → a.id = id → (∀ b ∈ l₁, b.id ≠ id) →
       updateTaskStatus s id { status := st }
         = (some { a with status := st },
            { s with tasks := l₁ ++ { a with status := st } :: l₂ }) ∧
       ({ a with status := st }).id = a.id ∧
       ({ a with status := st }).title = a.title ∧
       ({ a with status := st }).description = a.description ∧
       ({ a with status := st }).status = st ∧
       (l₁ ++ { a with status := st } :: l₂).length = s.tasks.length) := by
  constructor
  · intro s id st h
    have hb : ∀ t ∈ s.tasks, ((t.id == id) = false) := fun t ht =>
      beq_eq_false_iff_ne.mpr (h t ht)
    simp [updateTaskStatus, updateFirst_absent _ _ s.tasks hb]
  · intro s id st l₁ a l₂ hs ha h₁
    have h₁b : ∀ x ∈ l₁, ((x.id == id) = false) := fun x hx =>
      beq_eq_false_iff_ne.mpr (h₁ x hx)
    have hupd := updateFirst_present (fun t => t.id == id)
      (fun t => { t with status := st }) l₁ a l₂ h₁b (beq_iff_eq.mpr ha)
    refine ⟨?_, rfl, rfl, rfl, rfl, by simp [hs]⟩
    simp only [updateTaskStatus, hs, hupd]

/-- Witness for C8: updating the status of the present id "1" in the
initial store to done, and of the absent id "2". -/
theorem update_status_frame_witness :
    updateTaskStatus initialState "2" { status := TaskStatus.done }
      = (none, initialState) ∧
    updateTaskStatus initialState "1" { status := TaskStatus.done }
      = (some { sampleTask with status := TaskStatus.done },
         { initialState with tasks := [] ++ { sampleTask with status := TaskStatus.done } :: [] }) :=
  ⟨update_status_frame.1 initialState "2" TaskStatus.done (by decide),
   (update_status_frame.2 initialState "1" TaskStatus.done [] sampleTask []
      rfl rfl (by simp)).1⟩

/-- C9: id uniqueness invariant — starting from the initial store (sample
task with id "1", counter 2), after any sequence of create, update-status,
full-update and delete operations all stored ids are pairwise distinct;
every stored id is the decimal string of a counter value strictly below the
current counter, the counter never decreases (so an id assigned once is
never assigned again, even after a delete), and neither update operation
changes any stored id. -/
theorem id_uniqueness_invariant (ops : List Op) :
    ((applyOps initialState ops).tasks.map Task.id).Nodup ∧
    (∀ t ∈ (applyOps initialState ops).tasks,
       ∃ n, n < (applyOps initialState ops).nextId ∧ t.id = Nat.repr n) ∧
    (∀ (s : ServiceState) (op : Op), s.nextId ≤ (applyOp s op).nextId) ∧
    (∀ (s : ServiceState) (id : String) (u : UpdateTask),
       (updateTaskStatus s id u).2.tasks.map Task.id = s.tasks.map Task.id) ∧
    (∀ (s : ServiceState) (id : String) (d : CreateTask),
       (updateTask s id d).2.tasks.map Task.id = s.tasks.map Task.id) := by
  have hg := goodState_applyOps ops initialState goodState_initial
  refine ⟨hg.2, hg.1, applyOp_nextId_mono, ?_, ?_⟩
  · intro s id u
    exact updateFirst_map_id (fun t => t.id == id)
      (fun t => { t with status := u.status }) (fun t => rfl) s.tasks
  · intro s id d
    exact updateFirst_map_id (fun t => t.id == id)
      (fun t => { t with title := d.title, description := d.description,
                         status := d.status }) (fun t => rfl) s.tasks

/-- Witness for C9 on a concrete operation sequence: after a status update
followed by a delete of a missing id, the stored ids are pairwise distinct
and the remaining task's id is a consumed counter value. -/
theorem id_uniqueness_invariant_witness :
    ((applyOps initialState [Op.updateStatusOp "1" ⟨TaskStatus.done⟩, Op.deleteOp "7"]).tasks.map Task.id).Nodup ∧
    (∃ n, n < (applyOps initialState [Op.updateStatusOp "1" ⟨TaskStatus.done⟩, Op.deleteOp "7"]).nextId ∧
       (⟨"1", "Sample Task", "This is a sample task", TaskStatus.done⟩ : Task).id = Nat.repr n) :=
  ⟨(id_uniqueness_invariant [Op.updateStatusOp "1" ⟨TaskStatus.done⟩, Op.deleteOp "7"]).1,
   (id_uniqueness_invariant [Op.updateStatusOp "1" ⟨TaskStatus.done⟩, Op.deleteOp "7"]).2.1
     ⟨"1", "Sample Task", "This is a sample task", TaskStatus.done⟩ (by decide)⟩

/-- C10: the client's single-task lookup issues GET /tasks/{id}, but the
router registers no GET handler for /tasks/:id, so the request falls
through to the not-found middleware: the response is always HTTP 404 and
the store is untouched, regardless of its contents. -/
theorem get_task_always_404 (id : String) (b : ReqBody) (s : ServiceState) :
    (handle (getTaskRequest id).1 (getTaskRequest id).2 b s).1
      = { status := 404,
          body := RespBody.errBody ("Route " ++ ("/api/tasks/" ++ id) ++ " not found") [] } ∧
    (handle (getTaskRequest id).1 (getTaskRequest id).2 b s).2 = s ∧
    route Method.get (ApiPath.taskPath id)
      = Handler.hNotFound ("/api/tasks/" ++ id) :=
  ⟨rfl, rfl, rfl⟩

end TaskManager
